import Mathlib

/-!
Verification of the motif-scoring core of `sliding_window_tf_peak_motifs.py`
(Custom_GRN_Inference). The Python functions are shallowly embedded: numpy
arrays become `List`s, float64 scores become elements of an additive monoid
(instantiated at `ℚ` for concrete evaluation and `ℝ` where `log2` appears),
and fallible IO steps become `Except`/`Option` parameters.
-/

open Finset

namespace GRN

/-! ### Scanning kernel: `score_all_peaks`

Embeds the numba kernel

```
for i in prange(n_peaks):
    total = 0.0
    for strand in (seqs_plus[i], seqs_minus[i]):
        for j in range(L - wsize + 1):
            s = 0.0
            for k in range(wsize):
                idx = strand[j + k]
                if 0 <= idx < 4:
                    s += pwm_values[k, idx]
            total += s
    out[i] = total
```

Row codes are `Int` (int8 in the source); the PWM is a `wsize × 4` matrix of
scores. `L` is the common width of the two padded matrices
(`seqs_plus.shape[1]`), and Python's `range(L - wsize + 1)` over a possibly
negative bound is `List.range (L + 1 - wsize)` with truncated subtraction. -/

variable {α : Type*} [AddCommMonoid α]

/-- The inner `for k in range(wsize)` loop: the window sum at start `j`,
where a code outside `{0,1,2,3}` contributes `0`. -/
def windowScore (pwm : List (List α)) (strand : List Int) (j : ℕ) : α :=
  (List.range pwm.length).map (fun k =>
    let idx := strand.getD (j + k) (-1)
    if 0 ≤ idx ∧ idx < 4 then (pwm.getD k []).getD idx.toNat 0 else 0)
  |>.sum

/-- The `for j in range(L - wsize + 1)` loop over one strand, with `L` the
width of the plus-strand matrix passed in explicitly. -/
def strandScore (pwm : List (List α)) (strand : List Int) (L : ℕ) : α :=
  ((List.range (L + 1 - pwm.length)).map (windowScore pwm strand)).sum

/-- Score of one peak: `for strand in (seqs_plus[i], seqs_minus[i])`,
accumulating both strands into one total. -/
def scorePeak (pwm : List (List α)) (plus minus : List Int) : α :=
  strandScore pwm plus plus.length + strandScore pwm minus plus.length

/-- `score_all_peaks(seqs_plus, seqs_minus, pwm_values)`: the parallel
`prange` loop writes one independent cell per peak, i.e. a pointwise map
over the rows of the two matrices. -/
def score_all_peaks (seqs_plus seqs_minus : List (List Int)) (pwm : List (List α)) :
    List α :=
  List.zipWith (fun p m => scorePeak pwm p m) seqs_plus seqs_minus

/-- The claim-side window sum, written as a `Finset` sum over the window
positions exactly as the specification phrases it. -/
def specWindowSum (pwm : List (List α)) (strand : List Int) (j : ℕ) : α :=
  ∑ k ∈ Finset.range pwm.length,
    (if 0 ≤ strand.getD (j + k) (-1) ∧ strand.getD (j + k) (-1) < 4 then
      (pwm.getD k []).getD (strand.getD (j + k) (-1)).toNat 0 else 0)

/-- The claim-side score of one peak: sum over both strands (plus then minus)
and over every window start `0 ≤ j ≤ L - wsize`. -/
def specPeakScore (pwm : List (List α)) (plus minus : List Int) : α :=
  (∑ j ∈ Finset.range (plus.length + 1 - pwm.length), specWindowSum pwm plus j) +
  (∑ j ∈ Finset.range (plus.length + 1 - pwm.length), specWindowSum pwm minus j)

/-! ### Sequence padder: `pad_sequences`

Embeds

```
padded = np.full((len(seqs), fixed_len), pad_val, dtype=np.int8)
for i, seq in enumerate(seqs):
    padded[i, :len(seq)] = seq[:fixed_len]
return padded
```

`numpySliceAssign row n v` models the numpy slice assignment `row[:n] = v`:
basic slicing clips `n` to the row length, and the assignment replaces that
prefix with `v` (numpy requires `v` to have exactly the clipped length,
which holds at the call site since `v = seq[:fixed_len]`). -/

def numpySliceAssign (row : List Int) (n : ℕ) (v : List Int) : List Int :=
  v.take (min n row.length) ++ row.drop (min n row.length)

def pad_sequences (seqs : List (List Int)) (fixed_len : ℕ) (pad_val : Int) :
    List (List Int) :=
  seqs.map fun seq =>
    numpySliceAssign (List.replicate fixed_len pad_val) seq.length (seq.take fixed_len)

/-! ### Background frequencies: `get_background_freq`

Embeds the `if species == ... elif ... else raise Exception` chain; the
`pd.Series` becomes a record of the four probabilities (exact rationals for
the decimal literals) and the raised exception becomes `Except.error`. -/

structure BgFreq where
  A : ℚ
  C : ℚ
  G : ℚ
  T : ℚ
deriving DecidableEq

def human_hg38_mmusculus_freq : BgFreq :=
  ⟨29182 / 100000, 20818 / 100000, 20818 / 100000, 29182 / 100000⟩

def mouse_mm10_hsapiens_freq : BgFreq :=
  ⟨2917 / 10000, 2083 / 10000, 2083 / 10000, 2917 / 10000⟩

def get_background_freq (species : String) : Except String BgFreq :=
  if species = "human" ∨ species = "hg38" ∨ species = "mmusculus" then
    Except.ok human_hg38_mmusculus_freq
  else if species = "mouse" ∨ species = "mm10" ∨ species = "hsapiens" then
    Except.ok mouse_mm10_hsapiens_freq
  else
    Except.error
      ("Species " ++ species ++ " is not human, mouse, hg38, or mm10")

/-! ### Sequence encoder (`find_ATAC_peak_sequence`, lines 321–357)

The chromosome string is ascii-encoded (`np.frombuffer(..., dtype=np.uint8)`),
so a position is a byte in `Fin 256`. The 256-entry lookup table

```
lookup = np.full(256, -1, dtype=np.int8)
lookup[ord('A')] = 0 ... lookup[ord('N')] = 4
```

becomes `lookup`; `str.upper()` on ascii bytes becomes `upperByte`; the
Biopython `Seq.complement()` (IUPAC DNA complement table, case preserved,
non-IUPAC characters unchanged) becomes `complementByte`. The plus strand is
`upper` then table lookup; the minus strand is `complement`, then `upper`,
then table lookup — positionally, never reversed. -/

def lookup (b : Fin 256) : Int :=
  if b.val = 65 then 0          -- ord 'A'
  else if b.val = 67 then 1     -- ord 'C'
  else if b.val = 71 then 2     -- ord 'G'
  else if b.val = 84 then 3     -- ord 'T'
  else if b.val = 78 then 4     -- ord 'N'
  else -1

def upperByte (b : Fin 256) : Fin 256 :=
  if h : 97 ≤ b.val ∧ b.val ≤ 122 then ⟨b.val - 32, by omega⟩ else b

/-- Biopython's ambiguous-DNA complement table on ascii bytes: `A↔T`, `C↔G`,
`M↔K`, `R↔Y`, `V↔B`, `H↔D`, with `W`, `S`, `N`, `X` self-complementary,
lowercase likewise, and every other byte unchanged. -/
def complementByte (b : Fin 256) : Fin 256 :=
  if b.val = 65 then 84 else if b.val = 84 then 65       -- A ↔ T
  else if b.val = 67 then 71 else if b.val = 71 then 67  -- C ↔ G
  else if b.val = 77 then 75 else if b.val = 75 then 77  -- M ↔ K
  else if b.val = 82 then 89 else if b.val = 89 then 82  -- R ↔ Y
  else if b.val = 86 then 66 else if b.val = 66 then 86  -- V ↔ B
  else if b.val = 72 then 68 else if b.val = 68 then 72  -- H ↔ D
  else if b.val = 97 then 116 else if b.val = 116 then 97
  else if b.val = 99 then 103 else if b.val = 103 then 99
  else if b.val = 109 then 107 else if b.val = 107 then 109
  else if b.val = 114 then 121 else if b.val = 121 then 114
  else if b.val = 118 then 98 else if b.val = 98 then 118
  else if b.val = 104 then 100 else if b.val = 100 then 104
  else b

/-- Plus-strand codes: `lookup[frombuffer(str(seq).upper())]`. -/
def encode_plus (seq : List (Fin 256)) : List Int :=
  (seq.map upperByte).map lookup

/-- Minus-strand codes: `lookup[frombuffer(str(seq.complement()).upper())]`. -/
def encode_minus (seq : List (Fin 256)) : List Int :=
  ((seq.map complementByte).map upperByte).map lookup

/-- Complement on base codes: `0 ↔ 3` (A↔T), `1 ↔ 2` (C↔G), everything else
(`4` for N and `-1` for the sentinel) fixed. -/
def codeComplement (c : Int) : Int :=
  if c = 0 then 3 else if c = 1 then 2 else if c = 2 then 1
  else if c = 3 then 0 else c

/-! ### PWM builder (`process_motif_file_and_save`, lines 150–154)

Embeds

```
pwm = np.log2(motif_df.T.div(bg, axis=0).add(1)).T
pwm = np.vstack([pwm, np.zeros((1, 4))])
```

The transpose / row-wise divide / transpose chain is, elementwise, the
division of each position row by the background vector, so the builder maps
every position row through `fun f b => log2 (f / b + 1)` against `bg` and
appends the all-zero ambiguous-base row. -/

noncomputable def buildPWM (motif : List (List ℝ)) (bg : List ℝ) :
    List (List ℝ) :=
  (motif.map fun row => List.zipWith (fun f b => Real.logb 2 (f / b + 1)) row bg)
    ++ [List.replicate 4 0]

/-! ### Worker task (`process_motif_file_and_save`, lines 147–191)

The task body runs inside `try: ... except Exception: log; return False`.
Fallible IO steps are environment parameters: `readMotif` is the
`pd.read_csv` of the motif file, `writeCache` the per-TF
`pq.write_table`, and the three worker globals are `Option`s (a `none`
models the corresponding `assert` firing). The task returns its success
flag, the list of cache files it wrote, and its log. -/

/-- Python's `file.replace(".txt", "")`: remove every (leftmost,
non-overlapping) occurrence of `".txt"`. Fuel-based so it reduces in the
kernel; the fuel is the string length, which bounds the number of steps. -/
def stripTxtAux : ℕ → List Char → List Char
  | 0, s => s
  | _ + 1, [] => []
  | fuel + 1, c :: rest =>
      if List.isPrefixOf ['.', 't', 'x', 't'] (c :: rest) then
        stripTxtAux fuel (rest.drop 3)
      else c :: stripTxtAux fuel rest

def motif_id_of (file : String) : String :=
  ⟨stripTxtAux file.data.length file.data⟩

/-- `tf_names = tf_df.loc[tf_df["Motif_ID"] == motif_name]["TF_Name"]`:
the TF names of the rows whose motif id matches the file's. -/
def tf_names_for (tf_df : List (String × String)) (file : String) : List String :=
  (tf_df.filter fun r => r.1 == motif_id_of file).map (fun r => r.2)

/-- The `for tf in tf_names: pq.write_table(...)` loop: returns whether every
write succeeded and which cache files were written (a failure stops the loop
but keeps the files already written). -/
def writeAll (writeCache : String → Except String Unit) :
    List String → Bool × List String
  | [] => (true, [])
  | tf :: rest =>
      match writeCache tf with
      | Except.error _ => (false, [])
      | Except.ok _ =>
          let r := writeAll writeCache rest
          (r.1, tf :: r.2)

noncomputable def process_motif_file_and_save (bg : Option (List ℝ))
    (tf_df : Option (List (String × String))) (chr_pos : Option (List String))
    (plus minus : List (List Int)) (readMotif : Except String (List (List ℝ)))
    (writeCache : String → Except String Unit) (file : String) :
    Bool × List String × List String :=
  match bg with
  | none => (false, [], ["Error processing " ++ file])
  | some bgv =>
    match readMotif with
    | Except.error _ => (false, [], ["Error processing " ++ file])
    | Except.ok motif =>
      let pwm := buildPWM motif bgv
      let _scores := score_all_peaks plus minus pwm
      match tf_df with
      | none => (false, [], ["Error processing " ++ file])
      | some tfdf =>
        match chr_pos with
        | none => (false, [], ["Error processing " ++ file])
        | some _peaks =>
          let r := writeAll writeCache (tf_names_for tfdf file)
          if r.1 then (true, r.2, [])
          else (false, r.2, ["Error processing " ++ file])

/-! ### Cache validity and scheduling (`is_valid_parquet`, lines 193–198;
`associate_tf_with_motif_pwm`, lines 247–258)

`is_valid_parquet` wraps `ParquetFile(path)` in
`try ... except (ArrowInvalid, OSError): return False`; a missing file
raises `OSError` (`FileNotFoundError`), a truncated or corrupt one
`ArrowInvalid`, so the filesystem probe is a function into
`Except ParquetError`. -/

inductive ParquetError
  | arrowInvalid
  | osError

def is_valid_parquet (readPF : String → Except ParquetError Unit)
    (file_path : String) : Bool :=
  match readPF file_path with
  | Except.ok _ => true
  | Except.error _ => false

/-- The scheduler's skip filter: a motif file is kept as a task exactly when
its id is one of the filtered mapping's motif ids and not every associated
TF already has a valid parquet cache (`if not all_cached: append`). The cache
path for `tf` is `os.path.join(tmp_dir, f"{tf}.parquet")`, modelled as
`tf ++ ".parquet"` with the directory fixed. -/
def filtered_motif_files (meme_files : List String)
    (tf_motif_names : List String) (tf_df : List (String × String))
    (readPF : String → Except ParquetError Unit) : List String :=
  meme_files.filter fun motif_file =>
    tf_motif_names.contains (motif_id_of motif_file) &&
      !((tf_names_for tf_df motif_file).all fun tf =>
        is_valid_parquet readPF (tf ++ ".parquet"))

/-! ### Aggregation (`get_valid_parquet_files`, lines 200–210;
`associate_tf_with_motif_pwm`, lines 284–291)

`get_valid_parquet_files` keeps the `.parquet`-suffixed entries of the cache
directory whose metadata read succeeds (`except Exception: skip`); the
aggregator raises `RuntimeError` when no file survives and otherwise
concatenates the per-file `(peak_id, source_id, sliding_window_score)` rows
in listing order (`dd.read_parquet(valid_files).compute()`). -/

/-- Python's `f.endswith(suffix)`. -/
def endswith (s suffix : String) : Bool :=
  List.isSuffixOf suffix.data s.data

def get_valid_parquet_files (listing : List String)
    (readMeta : String → Except String Unit) : List String :=
  listing.filter fun f => endswith f ".parquet" && (readMeta f).isOk

def aggregate_cached_scores (listing : List String)
    (readMeta : String → Except String Unit)
    (loadRows : String → List (String × String × ℚ)) :
    Except String (List (String × String × ℚ)) :=
  let valid_files := get_valid_parquet_files listing readMeta
  if valid_files = [] then
    Except.error "No valid TF motif parquet files found after filtering."
  else
    Except.ok (valid_files.flatMap loadRows)

/-! ### Helper lemmas -/

lemma sum_map_list_range (f : ℕ → α) (n : ℕ) :
    ((List.range n).map f).sum = ∑ i ∈ Finset.range n, f i := rfl

lemma windowScore_eq_specWindowSum (pwm : List (List α)) (strand : List Int) (j : ℕ) :
    windowScore pwm strand j = specWindowSum pwm strand j := by
  simp only [windowScore, specWindowSum]
  exact sum_map_list_range _ _

lemma strandScore_eq_sum (pwm : List (List α)) (strand : List Int) (L : ℕ) :
    strandScore pwm strand L =
      ∑ j ∈ Finset.range (L + 1 - pwm.length), specWindowSum pwm strand j := by
  simp only [strandScore, windowScore_eq_specWindowSum]
  exact sum_map_list_range _ _

lemma scorePeak_eq_specPeakScore (pwm : List (List α)) (plus minus : List Int) :
    scorePeak pwm plus minus = specPeakScore pwm plus minus := by
  simp [scorePeak, specPeakScore, strandScore_eq_sum]

lemma pad_sequences_row (seq : List Int) (fixed_len : ℕ) (pad_val : Int) :
    numpySliceAssign (List.replicate fixed_len pad_val) seq.length (seq.take fixed_len) =
      seq.take fixed_len ++ List.replicate (fixed_len - seq.length) pad_val := by
  simp only [numpySliceAssign, List.length_replicate, List.take_take,
    List.drop_replicate]
  congr 1
  · exact List.take_eq_take.mpr (by omega)
  · congr 1
    omega

set_option maxRecDepth 4096 in
lemma lookup_complement_comm :
    ∀ b : Fin 256,
      lookup (upperByte (complementByte b)) = codeComplement (lookup (upperByte b)) := by
  decide

lemma writeAll_fst_iff (writeCache : String → Except String Unit)
    (l : List String) :
    (writeAll writeCache l).1 = true ↔ ∀ tf ∈ l, writeCache tf = Except.ok () := by
  induction l with
  | nil => simp [writeAll]
  | cons tf rest ih =>
      cases hw : writeCache tf with
      | error e => simp [writeAll, hw]
      | ok u =>
          cases u
          simp [writeAll, hw, ih]

lemma writeAll_snd_of_fst (writeCache : String → Except String Unit)
    (l : List String) (h : (writeAll writeCache l).1 = true) :
    (writeAll writeCache l).2 = l := by
  induction l with
  | nil => rfl
  | cons tf rest ih =>
      cases hw : writeCache tf with
      | error e => simp [writeAll, hw] at h
      | ok u =>
          simp only [writeAll, hw] at h ⊢
          rw [ih h]

end GRN

open GRN

/-- **C1.** For every pair of padded strand code matrices and every PWM,
`score_all_peaks` returns for peak `i` exactly the sum, over both strands
(plus then minus) and over every window start `0 ≤ j ≤ L - wsize`, of the
window sum over `k < wsize` of `PWM[k][code at j+k]`, any code outside
`{0,1,2,3}` contributing `0` (a sum over all windows, never a maximum). -/
theorem C1_score_all_peaks_is_window_sum (sp sm : List (List Int))
    (pwm : List (List ℚ)) (i : ℕ) (hp : i < sp.length) (hm : i < sm.length) :
    (score_all_peaks sp sm pwm).getD i 0 =
      specPeakScore pwm (sp.getD i []) (sm.getD i []) := by
  have hz : i < (score_all_peaks sp sm pwm).length := by
    simp [score_all_peaks]; omega
  rw [List.getD_eq_getElem _ _ hz, List.getD_eq_getElem _ _ hp,
    List.getD_eq_getElem _ _ hm]
  simp only [score_all_peaks, List.getElem_zipWith]
  exact scorePeak_eq_specPeakScore _ _ _

/-- Witness for C1: the specification's concrete scenario — plus-strand codes
`[0,1,2]`, minus-strand codes `[3,2,1]`, PWM `[[1,0,0,0],[0,1,0,0]]` — where
the kernel's output matches the window-sum formula and equals `3`. -/
theorem C1_score_all_peaks_is_window_sum_witness :
    (score_all_peaks [[0, 1, 2]] [[3, 2, 1]]
        [[(1 : ℚ), 0, 0, 0], [0, 1, 0, 0]]).getD 0 0 =
      specPeakScore [[(1 : ℚ), 0, 0, 0], [0, 1, 0, 0]] [0, 1, 2] [3, 2, 1] ∧
    (score_all_peaks [[0, 1, 2]] [[3, 2, 1]]
        [[(1 : ℚ), 0, 0, 0], [0, 1, 0, 0]]).getD 0 0 = 3 :=
  ⟨C1_score_all_peaks_is_window_sum [[0, 1, 2]] [[3, 2, 1]]
      [[(1 : ℚ), 0, 0, 0], [0, 1, 0, 0]] 0 (by decide) (by decide),
    by
      norm_num [score_all_peaks, scorePeak, strandScore, windowScore,
        List.range_succ]
      norm_num [show Int.toNat 2 = 2 from rfl, show Int.toNat 3 = 3 from rfl]⟩

/-- **C10.** `pad_sequences` returns, without error, a `len(seqs) × fixed_len`
matrix whose row `i` holds the first `min(len(seqs[i]), fixed_len)` codes of
sequence `i` followed by the pad value `-1`; a sequence longer than
`fixed_len` is silently truncated to its first `fixed_len` codes. -/
theorem C10_pad_sequences_shape_and_rows (seqs : List (List Int))
    (fixed_len : ℕ) (i : ℕ) (hi : i < seqs.length) :
    (pad_sequences seqs fixed_len (-1)).length = seqs.length ∧
    ((pad_sequences seqs fixed_len (-1)).getD i []).length = fixed_len ∧
    (pad_sequences seqs fixed_len (-1)).getD i [] =
      (seqs.getD i []).take fixed_len ++
        List.replicate (fixed_len - (seqs.getD i []).length) (-1) := by
  have hlen : (pad_sequences seqs fixed_len (-1)).length = seqs.length := by
    simp [pad_sequences]
  refine ⟨hlen, ?_, ?_⟩
  · rw [List.getD_eq_getElem _ _ (hlen ▸ hi)]
    simp only [pad_sequences, List.getElem_map, pad_sequences_row]
    simp only [List.length_append, List.length_take, List.length_replicate]
    omega
  · rw [List.getD_eq_getElem _ _ (hlen ▸ hi), List.getD_eq_getElem _ _ hi]
    simp [pad_sequences, pad_sequences_row]

/-- Witness for C10 at a sequence strictly longer than `fixed_len`:
`[1,2,3]` padded to width 2 is silently truncated to `[1,2]`. -/
theorem C10_pad_sequences_shape_and_rows_witness :
    (pad_sequences [[1, 2, 3]] 2 (-1)).length = 1 ∧
    ((pad_sequences [[1, 2, 3]] 2 (-1)).getD 0 []).length = 2 ∧
    (pad_sequences [[1, 2, 3]] 2 (-1)).getD 0 [] =
      ([1, 2, 3] : List Int).take 2 ++ List.replicate (2 - 3) (-1) :=
  C10_pad_sequences_shape_and_rows [[1, 2, 3]] 2 0 (by decide)

/-- **C2, counterexample.** The claim asserts that a peak whose unpadded
length is below the PWM width scores exactly `0` even after padding to the
global `max_len`. It fails: the plus-strand peak `[0]` of length `1 < 2`,
padded to `max_len = 2` (row `[0, -1]`, minus row `[3, -1]`), scores
`PWM[0][0] = 1 ≠ 0` — the window starting at the real prefix still
contributes. -/
theorem C2_short_peak_counterexample :
    ([0] : List Int).length < ([[(1 : ℚ), 0, 0, 0], [0, 1, 0, 0]]).length ∧
    (score_all_peaks (pad_sequences [[0]] 2 (-1)) (pad_sequences [[3]] 2 (-1))
        [[(1 : ℚ), 0, 0, 0], [0, 1, 0, 0]]).getD 0 0 ≠ 0 := by
  constructor
  · decide
  · norm_num [score_all_peaks, pad_sequences, numpySliceAssign, scorePeak,
      strandScore, windowScore, List.range_succ]
    norm_num [show Int.toNat 3 = 3 from rfl]

/-- **C2, amended.** A peak scores `0` on both strands when the kernel's row
length `L` — the padded width `fixed_len`, i.e. the unpadded length only when
no padding extends the peak past the PWM width — is strictly below `wsize`:
there is then no valid window and no error. After padding to a
`max_len ≥ wsize`, a short peak's real prefix may still contribute nonzero. -/
theorem C2_no_window_when_padded_row_shorter (seqs_p seqs_m : List (List Int))
    (pwm : List (List ℚ)) (fixed_len i : ℕ)
    (hw : fixed_len < pwm.length) (hp : i < seqs_p.length) (hm : i < seqs_m.length) :
    (score_all_peaks (pad_sequences seqs_p fixed_len (-1))
        (pad_sequences seqs_m fixed_len (-1)) pwm).getD i 0 = 0 := by
  have hp' : i < (pad_sequences seqs_p fixed_len (-1)).length := by
    simpa [pad_sequences] using hp
  have hm' : i < (pad_sequences seqs_m fixed_len (-1)).length := by
    simpa [pad_sequences] using hm
  have hz : i < (score_all_peaks (pad_sequences seqs_p fixed_len (-1))
      (pad_sequences seqs_m fixed_len (-1)) pwm).length := by
    simp only [score_all_peaks, List.length_zipWith]
    omega
  rw [List.getD_eq_getElem _ _ hz]
  simp only [score_all_peaks, List.getElem_zipWith]
  have hrow : ((pad_sequences seqs_p fixed_len (-1)).get ⟨i, hp'⟩).length = fixed_len := by
    simp only [List.get_eq_getElem, pad_sequences, List.getElem_map, pad_sequences_row]
    simp only [List.length_append, List.length_take, List.length_replicate]
    omega
  rw [List.get_eq_getElem] at hrow
  simp only [scorePeak, strandScore, hrow]
  rw [Nat.sub_eq_zero_of_le (by omega)]
  simp

/-- Witness for the amended C2: a length-1 peak padded only to width 1
(`max_len = 1 < wsize = 2`) scores `0`. -/
theorem C2_no_window_when_padded_row_shorter_witness :
    (score_all_peaks (pad_sequences [[0]] 1 (-1)) (pad_sequences [[3]] 1 (-1))
        [[(1 : ℚ), 0, 0, 0], [0, 1, 0, 0]]).getD 0 0 = 0 :=
  C2_no_window_when_padded_row_shorter [[0]] [[3]]
    [[(1 : ℚ), 0, 0, 0], [0, 1, 0, 0]] 1 0 (by decide) (by decide) (by decide)

/-- **C9.** The `i`-th output of `score_all_peaks` depends only on the `i`-th
row of each strand matrix and the PWM: two calls agreeing there agree on the
`i`-th output, whatever the other rows; and the kernel is a pointwise map
over paired rows, so permuting the peak rows of both matrices identically
permutes the output vector. -/
theorem C9_score_all_peaks_per_peak_independence :
    (∀ (sp sm sp' sm' : List (List Int)) (pwm : List (List ℚ)) (i : ℕ),
      i < sp.length → i < sm.length → i < sp'.length → i < sm'.length →
      sp.getD i [] = sp'.getD i [] → sm.getD i [] = sm'.getD i [] →
      (score_all_peaks sp sm pwm).getD i 0 =
        (score_all_peaks sp' sm' pwm).getD i 0) ∧
    (∀ (rows : List (List Int × List Int)) (pwm : List (List ℚ)),
      score_all_peaks (rows.map Prod.fst) (rows.map Prod.snd) pwm =
        rows.map fun pr => scorePeak pwm pr.1 pr.2) := by
  constructor
  · intro sp sm sp' sm' pwm i hp hm hp' hm' hep hem
    have hz : i < (score_all_peaks sp sm pwm).length := by
      simp [score_all_peaks]; omega
    have hz' : i < (score_all_peaks sp' sm' pwm).length := by
      simp [score_all_peaks]; omega
    rw [List.getD_eq_getElem _ _ hz, List.getD_eq_getElem _ _ hz']
    rw [List.getD_eq_getElem _ _ hp, List.getD_eq_getElem _ _ hp'] at hep
    rw [List.getD_eq_getElem _ _ hm, List.getD_eq_getElem _ _ hm'] at hem
    simp only [score_all_peaks, List.getElem_zipWith, hep, hem]
  · intro rows pwm
    induction rows with
    | nil => rfl
    | cons r rest ih => simp [score_all_peaks] at ih ⊢

/-- Witness for C9: the 0-th score is unchanged when the other peak's rows are
replaced entirely. -/
theorem C9_score_all_peaks_per_peak_independence_witness :
    (score_all_peaks [[0, 1], [2, 3]] [[3, 2], [1, 0]]
        [[(1 : ℚ), 0, 0, 0], [0, 1, 0, 0]]).getD 0 0 =
      (score_all_peaks [[0, 1], [0, 0]] [[3, 2], [3, 3]]
        [[(1 : ℚ), 0, 0, 0], [0, 1, 0, 0]]).getD 0 0 :=
  C9_score_all_peaks_per_peak_independence.1 [[0, 1], [2, 3]] [[3, 2], [1, 0]]
    [[0, 1], [0, 0]] [[3, 2], [3, 3]] [[(1 : ℚ), 0, 0, 0], [0, 1, 0, 0]] 0
    (by decide) (by decide) (by decide) (by decide) (by decide) (by decide)

/-- **C4.** `get_background_freq` maps every label in
`{"human", "hg38", "mmusculus"}` to the `(0.29182, 0.20818, 0.20818, 0.29182)`
vector, every label in `{"mouse", "mm10", "hsapiens"}` to the
`(0.2917, 0.2083, 0.2083, 0.2917)` vector — preserving the existing
(inverted-looking) alias grouping — and raises for every other label. -/
theorem C4_get_background_freq_grouping (species : String) :
    (species ∈ ["human", "hg38", "mmusculus"] →
      get_background_freq species = Except.ok human_hg38_mmusculus_freq) ∧
    (species ∈ ["mouse", "mm10", "hsapiens"] →
      get_background_freq species = Except.ok mouse_mm10_hsapiens_freq) ∧
    (species ∉ ["human", "hg38", "mmusculus"] →
      species ∉ ["mouse", "mm10", "hsapiens"] →
      ∃ e, get_background_freq species = Except.error e) := by
  refine ⟨?_, ?_, ?_⟩
  · intro h
    simp only [List.mem_cons, List.not_mem_nil, or_false] at h
    rw [get_background_freq, if_pos h]
  · intro h
    simp only [List.mem_cons, List.not_mem_nil, or_false] at h
    have hnot : ¬(species = "human" ∨ species = "hg38" ∨ species = "mmusculus") := by
      rcases h with h | h | h <;> subst h <;> decide
    rw [get_background_freq, if_neg hnot, if_pos h]
  · intro h1 h2
    simp only [List.mem_cons, List.not_mem_nil, or_false] at h1 h2
    rw [get_background_freq, if_neg h1, if_neg h2]
    exact ⟨_, rfl⟩

/-- Witness for C4: "human" gets the first vector, "mouse" the second, and
"hsapiens" — despite naming the human species — also the second; "dog"
errors. -/
theorem C4_get_background_freq_grouping_witness :
    get_background_freq "human" = Except.ok human_hg38_mmusculus_freq ∧
    get_background_freq "mouse" = Except.ok mouse_mm10_hsapiens_freq ∧
    get_background_freq "hsapiens" = Except.ok mouse_mm10_hsapiens_freq ∧
    ∃ e, get_background_freq "dog" = Except.error e :=
  ⟨(C4_get_background_freq_grouping "human").1 (by decide),
   (C4_get_background_freq_grouping "mouse").2.1 (by decide),
   (C4_get_background_freq_grouping "hsapiens").2.1 (by decide),
   (C4_get_background_freq_grouping "dog").2.2 (by decide) (by decide)⟩

set_option maxRecDepth 8192 in
/-- **C5.** The 256-entry lookup table maps `A→0`, `C→1`, `G→2`, `T→3`,
`N→4` and every other byte to the sentinel `-1`; the plus strand is the
direct mapping of the uppercased sequence, the minus strand the mapping of
the base-complemented (not reverse-complemented) sequence: lengths are
preserved and, positionally, every minus-strand code is the code of the
complement of the base at the same position. -/
theorem C5_encoder_lookup_and_complement :
    (lookup 65 = 0 ∧ lookup 67 = 1 ∧ lookup 71 = 2 ∧ lookup 84 = 3 ∧
      lookup 78 = 4 ∧
      ∀ b : Fin 256, b.val ≠ 65 → b.val ≠ 67 → b.val ≠ 71 → b.val ≠ 84 →
        b.val ≠ 78 → lookup b = -1) ∧
    (∀ seq : List (Fin 256),
      (encode_plus seq).length = seq.length ∧
      (encode_minus seq).length = seq.length) ∧
    (∀ (seq : List (Fin 256)) (p : ℕ), p < seq.length →
      (encode_minus seq).getD p 0 =
        codeComplement ((encode_plus seq).getD p 0)) := by
  refine ⟨?_, ?_, ?_⟩
  · exact ⟨by decide, by decide, by decide, by decide, by decide, by decide⟩
  · intro seq
    constructor <;> simp [encode_plus, encode_minus]
  · intro seq p hp
    have h1 : p < (encode_minus seq).length := by simp [encode_minus, hp]
    have h2 : p < (encode_plus seq).length := by simp [encode_plus, hp]
    rw [List.getD_eq_getElem _ _ h1, List.getD_eq_getElem _ _ h2]
    simp only [encode_minus, encode_plus, List.getElem_map]
    exact lookup_complement_comm _

/-- Witness for C5 at the two-byte sequence `"Ac"` (bytes 65, 99): the
minus-strand code at each position is the complement of the plus-strand
code there. -/
theorem C5_encoder_lookup_and_complement_witness :
    (encode_minus [65, 99]).getD 0 0 =
      codeComplement ((encode_plus [65, 99]).getD 0 0) ∧
    (encode_minus [65, 99]).getD 1 0 =
      codeComplement ((encode_plus [65, 99]).getD 1 0) :=
  ⟨C5_encoder_lookup_and_complement.2.2 [65, 99] 0 (by decide),
   C5_encoder_lookup_and_complement.2.2 [65, 99] 1 (by decide)⟩

/-- **C3.** For a `w × 4` motif frequency matrix and a background vector, the
built PWM has exactly `w + 1` rows; entry `(p, b)` for `p < w` equals
`log2(freq[p][b] / background[b] + 1)`; and the last row (index `w`, the
ambiguous-base row) is all zeros. -/
theorem C3_pwm_builder (motif : List (List ℝ)) (bg : List ℝ)
    (hbg : bg.length = 4) (hrows : ∀ r ∈ motif, r.length = 4)
    (p b : ℕ) (hp : p < motif.length) (hb : b < 4) :
    (buildPWM motif bg).length = motif.length + 1 ∧
    ((buildPWM motif bg).getD p []).getD b 0 =
      Real.logb 2 ((motif.getD p []).getD b 0 / bg.getD b 0 + 1) ∧
    (buildPWM motif bg).getD motif.length [] = [0, 0, 0, 0] := by
  have hmap :
      (motif.map fun row =>
        List.zipWith (fun f b => Real.logb 2 (f / b + 1)) row bg).length =
        motif.length := by
    simp
  refine ⟨by simp [buildPWM], ?_, ?_⟩
  · have hp1 : p < (buildPWM motif bg).length := by simp [buildPWM]; omega
    rw [List.getD_eq_getElem _ _ hp1]
    have hget : (buildPWM motif bg)[p] =
        List.zipWith (fun f b => Real.logb 2 (f / b + 1)) (motif[p]) bg := by
      simp only [buildPWM]
      rw [List.getElem_append_left (hmap ▸ hp)]
      simp
    rw [hget]
    have hrowlen : (motif[p]).length = 4 := hrows _ (List.getElem_mem hp)
    have hb1 : b < (List.zipWith (fun f b => Real.logb 2 (f / b + 1))
        (motif[p]) bg).length := by
      simp [hrowlen, hbg]; omega
    rw [List.getD_eq_getElem _ _ hb1, List.getD_eq_getElem _ _ hp,
      List.getD_eq_getElem _ _ (by omega : b < bg.length),
      List.getD_eq_getElem _ _ (by omega : b < (motif[p]).length)]
    simp
  · have hlast : motif.length < (buildPWM motif bg).length := by
      simp [buildPWM]
    rw [List.getD_eq_getElem _ _ hlast]
    simp only [buildPWM]
    rw [List.getElem_append_right (by omega)]
    simp [hmap, List.replicate]

/-- Witness for C3 at the one-row motif `[[1,0,0,0]]` with unit background:
the PWM is `2 × 4`, entry `(0,0)` is `log2(1/1 + 1)`, and row 1 is zeros. -/
theorem C3_pwm_builder_witness :
    (buildPWM [[1, 0, 0, 0]] [1, 1, 1, 1]).length = 2 ∧
    ((buildPWM [[1, 0, 0, 0]] [1, 1, 1, 1]).getD 0 []).getD 0 0 =
      Real.logb 2 ((([[(1 : ℝ), 0, 0, 0]]).getD 0 []).getD 0 0 /
        (([1, 1, 1, 1] : List ℝ).getD 0 0) + 1) ∧
    (buildPWM [[1, 0, 0, 0]] [1, 1, 1, 1]).getD 1 [] = [0, 0, 0, 0] := by
  have h := C3_pwm_builder [[1, 0, 0, 0]] [1, 1, 1, 1] (by simp)
    (by intro r hr; simp at hr; simp [hr]) 0 0 (by simp) (by omega)
  exact ⟨h.1, h.2.1, h.2.2⟩

/-- **C6.** The worker task never propagates an exception to its caller: it
is a total function into a success flag. It returns `true` exactly when the
worker globals are initialized, the motif file was read, and one cache file
per associated TF was written; in the success case the written files are
exactly the associated TFs' caches, and on any internal error it returns
`false` with the error logged together with the motif file identifier. -/
theorem C6_process_motif_fail_soft (bg : Option (List ℝ))
    (tf_df : Option (List (String × String))) (chr_pos : Option (List String))
    (plus minus : List (List Int)) (readMotif : Except String (List (List ℝ)))
    (writeCache : String → Except String Unit) (file : String) :
    ((process_motif_file_and_save bg tf_df chr_pos plus minus readMotif
        writeCache file).1 = true ↔
      (∃ bgv motif tfdf peaks,
        bg = some bgv ∧ readMotif = Except.ok motif ∧ tf_df = some tfdf ∧
        chr_pos = some peaks ∧
        ∀ tf ∈ tf_names_for tfdf file, writeCache tf = Except.ok ())) ∧
    (∀ tfdf, tf_df = some tfdf →
      (process_motif_file_and_save bg tf_df chr_pos plus minus readMotif
        writeCache file).1 = true →
      (process_motif_file_and_save bg tf_df chr_pos plus minus readMotif
        writeCache file).2.1 = tf_names_for tfdf file) ∧
    ((process_motif_file_and_save bg tf_df chr_pos plus minus readMotif
        writeCache file).1 = false →
      (process_motif_file_and_save bg tf_df chr_pos plus minus readMotif
        writeCache file).2.2 = ["Error processing " ++ file]) := by
  cases bg with
  | none => simp [process_motif_file_and_save]
  | some bgv =>
    cases readMotif with
    | error e => simp [process_motif_file_and_save]
    | ok motif =>
      cases tf_df with
      | none => simp [process_motif_file_and_save]
      | some tfdf =>
        cases chr_pos with
        | none => simp [process_motif_file_and_save]
        | some peaks =>
          by_cases hw : (writeAll writeCache (tf_names_for tfdf file)).1 = true
          · refine ⟨?_, ?_, ?_⟩
            · simp only [process_motif_file_and_save, hw, if_true]
              constructor
              · intro _
                exact ⟨bgv, motif, tfdf, peaks, rfl, rfl, rfl, rfl,
                  (writeAll_fst_iff _ _).mp hw⟩
              · intro _; trivial
            · intro tfdf' htf _
              obtain rfl : tfdf = tfdf' := by injection htf
              simp only [process_motif_file_and_save, hw, if_true]
              exact writeAll_snd_of_fst _ _ hw
            · simp [process_motif_file_and_save, hw]
          · refine ⟨?_, ?_, ?_⟩
            · simp only [process_motif_file_and_save, hw, if_false]
              constructor
              · intro h; exact absurd h (by simp)
              · rintro ⟨bgv', motif', tfdf', peaks', h1, h2, h3, h4, h5⟩
                obtain rfl : tfdf = tfdf' := by injection h3
                exact absurd ((writeAll_fst_iff _ _).mpr h5) hw
            · intro tfdf' htf h
              simp only [process_motif_file_and_save, hw, if_false] at h
              simp at h
            · simp [process_motif_file_and_save, hw]

/-- Witness for C6: with initialized globals, a readable one-row motif, an
always-succeeding cache writer, and motif file `"M1.txt"` owned by `TF1`,
the task reports success. -/
theorem C6_process_motif_fail_soft_witness :
    (process_motif_file_and_save (some [1, 1, 1, 1]) (some [("M1", "TF1")])
      (some ["chr1:0-1"]) [] [] (Except.ok [[1, 0, 0, 0]])
      (fun _ => Except.ok ()) "M1.txt").1 = true :=
  (C6_process_motif_fail_soft (some [1, 1, 1, 1]) (some [("M1", "TF1")])
    (some ["chr1:0-1"]) [] [] (Except.ok [[1, 0, 0, 0]])
    (fun _ => Except.ok ()) "M1.txt").1.mpr
    ⟨[1, 1, 1, 1], [[1, 0, 0, 0]], [("M1", "TF1")], ["chr1:0-1"],
      rfl, rfl, rfl, rfl, fun _ _ => rfl⟩

/-- **C7.** A motif file whose id appears in the filtered TF-to-motif
mapping is excluded from the scheduled task list iff every associated TF's
cache file passes `is_valid_parquet`; and that check is `false` exactly when
probing the file raises (`ArrowInvalid` for a truncated/corrupt file,
`OSError` for a missing one) — it returns a boolean rather than raising. -/
theorem C7_schedule_skips_fully_cached_motifs (meme_files : List String)
    (tf_motif_names : List String) (tf_df : List (String × String))
    (readPF : String → Except ParquetError Unit) (f : String)
    (hf : f ∈ meme_files) (hid : motif_id_of f ∈ tf_motif_names) :
    (f ∉ filtered_motif_files meme_files tf_motif_names tf_df readPF ↔
      ∀ tf ∈ tf_names_for tf_df f,
        is_valid_parquet readPF (tf ++ ".parquet") = true) ∧
    (∀ path, is_valid_parquet readPF path = false ↔
      ∃ e, readPF path = Except.error e) := by
  constructor
  · rw [filtered_motif_files, List.mem_filter]
    simp [hf, hid, List.all_eq_true]
  · intro path
    rw [is_valid_parquet]
    cases h : readPF path with
    | ok u => simp
    | error e => simp

/-- Witness for C7: with mapping `{M1 → TF1}` and an empty filesystem (every
probe raises `OSError`), the file `"M1.txt"` is not excluded — equivalently,
not every associated TF is validly cached — and the validity check reports
`false` for the missing `"TF1.parquet"` without raising. -/
theorem C7_schedule_skips_fully_cached_motifs_witness :
    (("M1.txt" ∉ filtered_motif_files ["M1.txt"] ["M1"] [("M1", "TF1")]
        (fun _ => Except.error ParquetError.osError) ↔
      ∀ tf ∈ tf_names_for [("M1", "TF1")] "M1.txt",
        is_valid_parquet (fun _ => Except.error ParquetError.osError)
          (tf ++ ".parquet") = true)) ∧
    (∀ path, is_valid_parquet (fun _ => Except.error ParquetError.osError)
        path = false ↔
      ∃ e, (fun _ => Except.error ParquetError.osError : String →
        Except ParquetError Unit) path = Except.error e) :=
  C7_schedule_skips_fully_cached_motifs ["M1.txt"] ["M1"] [("M1", "TF1")]
    (fun _ => Except.error ParquetError.osError) "M1.txt"
    (by decide) (by decide)

/-- **C8.** The aggregator keeps exactly the structurally valid
`.parquet` entries of the cache directory listing, errors iff none survive,
and otherwise returns the concatenation of their
`(peak_id, source_id, sliding_window_score)` rows in listing order. -/
theorem C8_aggregate_error_iff_no_valid_cache (listing : List String)
    (readMeta : String → Except String Unit)
    (loadRows : String → List (String × String × ℚ)) :
    (∀ f, f ∈ get_valid_parquet_files listing readMeta ↔
      f ∈ listing ∧ endswith f ".parquet" = true ∧ (readMeta f).isOk = true) ∧
    ((∃ e, aggregate_cached_scores listing readMeta loadRows =
        Except.error e) ↔
      get_valid_parquet_files listing readMeta = []) ∧
    (get_valid_parquet_files listing readMeta ≠ [] →
      aggregate_cached_scores listing readMeta loadRows =
        Except.ok ((get_valid_parquet_files listing readMeta).flatMap
          loadRows)) := by
  refine ⟨?_, ?_, ?_⟩
  · intro f
    simp [get_valid_parquet_files, List.mem_filter, and_assoc]
  · by_cases h : get_valid_parquet_files listing readMeta = []
    · simp [aggregate_cached_scores, h]
    · simp [aggregate_cached_scores, h]
  · intro h
    simp [aggregate_cached_scores, h]

/-- Witness for C8: with listing `["TF1.parquet", "junk.txt"]` and every
metadata read succeeding, the valid set is nonempty and the aggregate is the
rows of `"TF1.parquet"` alone. -/
theorem C8_aggregate_error_iff_no_valid_cache_witness :
    get_valid_parquet_files ["TF1.parquet", "junk.txt"]
      (fun _ => Except.ok ()) ≠ [] ∧
    aggregate_cached_scores ["TF1.parquet", "junk.txt"] (fun _ => Except.ok ())
      (fun p => [(p, "TF1", 1)]) =
      Except.ok ((get_valid_parquet_files ["TF1.parquet", "junk.txt"]
        (fun _ => Except.ok ())).flatMap fun p => [(p, "TF1", 1)]) :=
  ⟨by decide,
    (C8_aggregate_error_iff_no_valid_cache ["TF1.parquet", "junk.txt"]
      (fun _ => Except.ok ()) (fun p => [(p, "TF1", 1)])).2.2 (by decide)⟩
